import Mathlib

/-
Verification of the deployment scheduler of the hypervisor_mlops backend.

The embedding models `core/models.py` (Cluster, Deployment) and
`core/tasks.py` (`schedule_deployment`, a Celery shared_task with
max_retries=3 and default_retry_delay=60).

Modelling conventions:
- Django FloatField columns are modelled as exact rationals.
- Deployment.status is a stored string column (TextChoices), modelled as
  String; the four stored values are the lowercase strings of
  Deployment.Status in models.py.
- The database is a list of deployment rows plus one cluster row (all
  claims concern a single cluster). Deployment.objects.get(id=...) is
  lookup by id; obj.save() overwrites the row with all in-memory fields.
- The Celery request.retries counter is passed explicitly; self.retry
  with max_retries=3 enqueues a delayed re-attempt (countdown =
  default_retry_delay) when request.retries + 1 <= max_retries and
  otherwise raises the given exc, which the task catches. The scheduling
  of the re-attempt is surfaced in the result as the retryAfter field.
-/

namespace HypervisorMLOps

/-- Stored value of core.models.Deployment.Status.PENDING. -/
def Status.PENDING : String := "pending"

/-- Stored value of core.models.Deployment.Status.RUNNING. -/
def Status.RUNNING : String := "running"

/-- Stored value of core.models.Deployment.Status.FAILED. -/
def Status.FAILED : String := "failed"

/-- Stored value of core.models.Deployment.Status.COMPLETED. -/
def Status.COMPLETED : String := "completed"

/-- core.models.Cluster: resource limits and available resources, all FloatField. -/
structure Cluster where
  cpu_limit : ℚ
  ram_limit : ℚ
  gpu_limit : ℚ
  cpu_available : ℚ
  ram_available : ℚ
  gpu_available : ℚ
deriving DecidableEq, Repr

/-- core.models.Deployment: one row of the deployments table. The cluster
foreign key is implicit (a single cluster per database state); the
many-to-many dependencies relation is the list of dependency deployment ids. -/
structure Deployment where
  id : ℕ
  name : String
  docker_image : String
  status : String
  priority : ℤ
  cpu_required : ℚ
  ram_required : ℚ
  gpu_required : ℚ
  dependencies : List ℕ
deriving DecidableEq, Repr

/-- The persistent store observed by one scheduling attempt: the deployment
rows and the cluster row of the (single) cluster they belong to. -/
structure DB where
  deployments : List Deployment
  cluster : Cluster
deriving DecidableEq, Repr

/-- Deployment.objects.get(id=deployment_id): lookup by primary key;
none models Deployment.DoesNotExist. -/
def findDeployment (ds : List Deployment) (i : ℕ) : Option Deployment :=
  ds.find? (fun d => d.id == i)

/-- obj.save(): overwrite the row with the given id with the in-memory object. -/
def saveDeployment (ds : List Deployment) (d : Deployment) : List Deployment :=
  ds.map (fun x => if x.id == d.id then d else x)

/-- The resource-availability check of tasks.py lines 36-40:
cpu_available >= cpu_required and ram_available >= ram_required and
gpu_available >= gpu_required. -/
def sufficientResources (c : Cluster) (d : Deployment) : Bool :=
  decide (c.cpu_available ≥ d.cpu_required) &&
  decide (c.ram_available ≥ d.ram_required) &&
  decide (c.gpu_available ≥ d.gpu_required)

/-- The counter decrements of tasks.py lines 43-45. -/
def allocate (c : Cluster) (d : Deployment) : Cluster :=
  { c with
    cpu_available := c.cpu_available - d.cpu_required
    ram_available := c.ram_available - d.ram_required
    gpu_available := c.gpu_available - d.gpu_required }

/-- The max_retries argument of the shared_task decorator. -/
def max_retries : ℕ := 3

/-- The default_retry_delay argument of the shared_task decorator (seconds). -/
def default_retry_delay : ℕ := 60

/-- Result of one scheduling attempt: the store after the attempt, the string
the task returns, and the countdown of the delayed re-attempt enqueued by
self.retry, if one was enqueued. -/
structure AttemptResult where
  db : DB
  message : String
  retryAfter : Option ℕ
deriving DecidableEq, Repr

/-- core.tasks.schedule_deployment, one attempt. The retries argument is the
Celery request.retries counter of this attempt (0 on the initial attempt).
Branches follow the source: fetch by id (DoesNotExist is caught and returns
the not-found string); if resources suffice, set status RUNNING, decrement the
three counters and save deployment and cluster in one transaction.atomic block;
otherwise set status PENDING, save, and call self.retry, which enqueues a
delayed re-attempt while request.retries + 1 <= max_retries and otherwise
raises the exc, caught by the except Retry handler which returns its string. -/
def schedule_deployment (db : DB) (deployment_id : ℕ) (retries : ℕ) : AttemptResult :=
  match findDeployment db.deployments deployment_id with
  | none =>
      { db := db
        message := "Deployment " ++ toString deployment_id ++ " not found."
        retryAfter := none }
  | some deployment =>
      if sufficientResources db.cluster deployment then
        let running := { deployment with status := Status.RUNNING }
        { db := { deployments := saveDeployment db.deployments running
                  cluster := allocate db.cluster deployment }
          message := "Deployment " ++ toString deployment.id ++ " is now running."
          retryAfter := none }
      else
        let pending := { deployment with status := Status.PENDING }
        let db2 : DB := { db with deployments := saveDeployment db.deployments pending }
        if retries + 1 ≤ max_retries then
          { db := db2
            message := "Insufficient resources, retrying..."
            retryAfter := some default_retry_delay }
        else
          { db := db2
            message := "Insufficient resources, retrying..."
            retryAfter := none }

/-- A found deployment is a member of the table. -/
theorem findDeployment_mem {ds : List Deployment} {i : ℕ} {d : Deployment}
    (h : findDeployment ds i = some d) : d ∈ ds :=
  List.mem_of_find?_eq_some h

/-- A found deployment has the id it was looked up by. -/
theorem findDeployment_id {ds : List Deployment} {i : ℕ} {d : Deployment}
    (h : findDeployment ds i = some d) : d.id = i := by
  have hp := List.find?_some h
  simpa using hp

/-- Saving a row with the id of the row found at i makes the saved row the one
found at i afterwards. -/
theorem findDeployment_save {ds : List Deployment} {i : ℕ} {d d2 : Deployment}
    (h : findDeployment ds i = some d) (hid : d2.id = d.id) :
    findDeployment (saveDeployment ds d2) i = some d2 := by
  have hdi : d.id = i := findDeployment_id h
  induction ds with
  | nil => simp [findDeployment] at h
  | cons x xs ih =>
    simp only [findDeployment, List.find?_cons] at h
    simp only [saveDeployment, List.map_cons, findDeployment, List.find?_cons]
    by_cases hx : (x.id == i) = true
    · rw [hx] at h
      simp only [Option.some.injEq] at h
      have hcond : (x.id == d2.id) = true := by
        rw [h, hid]
        exact beq_self_eq_true _
      have hd2i : (d2.id == i) = true := by
        rw [hid, hdi]
        exact beq_self_eq_true _
      rw [if_pos hcond, hd2i]
    · have hxf : (x.id == i) = false := by
        simpa using hx
      rw [hxf] at h
      have hcond : ¬ ((x.id == d2.id) = true) := by
        rw [hid, hdi]
        exact hx
      rw [if_neg hcond, hxf]
      exact ih h

/-- C1: a scheduling attempt on an existing deployment admits it iff all three
availability comparisons hold simultaneously; on success the status stored for
the deployment becomes running and each available counter is decremented by
exactly the corresponding required amount. -/
theorem C1_admission_iff (db : DB) (i retries : ℕ) (d : Deployment)
    (h : findDeployment db.deployments i = some d) :
    (findDeployment (schedule_deployment db i retries).db.deployments i =
        some { d with status := Status.RUNNING }
      ↔ (db.cluster.cpu_available ≥ d.cpu_required ∧
         db.cluster.ram_available ≥ d.ram_required ∧
         db.cluster.gpu_available ≥ d.gpu_required)) ∧
    ((db.cluster.cpu_available ≥ d.cpu_required ∧
      db.cluster.ram_available ≥ d.ram_required ∧
      db.cluster.gpu_available ≥ d.gpu_required) →
      ((schedule_deployment db i retries).db.cluster.cpu_available =
          db.cluster.cpu_available - d.cpu_required ∧
       (schedule_deployment db i retries).db.cluster.ram_available =
          db.cluster.ram_available - d.ram_required ∧
       (schedule_deployment db i retries).db.cluster.gpu_available =
          db.cluster.gpu_available - d.gpu_required)) := by
  by_cases hs : sufficientResources db.cluster d = true
  · have hc : db.cluster.cpu_available ≥ d.cpu_required ∧
        db.cluster.ram_available ≥ d.ram_required ∧
        db.cluster.gpu_available ≥ d.gpu_required := by
      simpa [sufficientResources, ge_iff_le, and_assoc] using hs
    have hres : schedule_deployment db i retries =
        { db := { deployments := saveDeployment db.deployments
                    { d with status := Status.RUNNING }
                  cluster := allocate db.cluster d }
          message := "Deployment " ++ toString d.id ++ " is now running."
          retryAfter := none } := by
      simp [schedule_deployment, h, hs]
    refine ⟨iff_of_true ?_ hc, fun _ => ?_⟩
    · rw [hres]
      exact findDeployment_save h rfl
    · rw [hres]
      exact ⟨rfl, rfl, rfl⟩
  · have hc : ¬ (db.cluster.cpu_available ≥ d.cpu_required ∧
        db.cluster.ram_available ≥ d.ram_required ∧
        db.cluster.gpu_available ≥ d.gpu_required) := by
      intro hcon
      exact hs (by simpa [sufficientResources, ge_iff_le, and_assoc] using hcon)
    have hsf : sufficientResources db.cluster d = false := by
      simpa using hs
    have hfind : findDeployment (schedule_deployment db i retries).db.deployments i =
        some { d with status := Status.PENDING } := by
      simp only [schedule_deployment, h, hsf, Bool.false_eq_true, if_false]
      split
      · exact findDeployment_save h rfl
      · exact findDeployment_save h rfl
    refine ⟨iff_of_false ?_ hc, fun hcon => absurd hcon hc⟩
    rw [hfind]
    intro he
    have h2 : ({ d with status := Status.PENDING } : Deployment) =
        { d with status := Status.RUNNING } := Option.some.inj he
    have h3 : Status.PENDING = Status.RUNNING := congrArg Deployment.status h2
    exact absurd h3 (by decide)

/-- The example pool of the spec scenario: limits and availability
(cpu, ram, gpu) = (10, 32, 2). -/
def examplePool : Cluster :=
  { cpu_limit := 10, ram_limit := 32, gpu_limit := 2
    cpu_available := 10, ram_available := 32, gpu_available := 2 }

/-- The example workload of the spec scenario: requires (2, 4, 1). -/
def exampleDeployment : Deployment :=
  { id := 1, name := "web", docker_image := "img", status := Status.PENDING
    priority := 0, cpu_required := 2, ram_required := 4, gpu_required := 1
    dependencies := [] }

/-- Store holding the example pool and workload. -/
def exampleDB : DB := { deployments := [exampleDeployment], cluster := examplePool }

/-- Witness for C1 at the concrete scenario of the spec: demand (2, 4, 1)
against availability (10, 32, 2) is admitted, the pool becomes (8, 28, 1) and
the stored status becomes running. -/
theorem C1_admission_iff_witness :
    findDeployment (schedule_deployment exampleDB 1 0).db.deployments 1 =
        some { exampleDeployment with status := Status.RUNNING } ∧
    (schedule_deployment exampleDB 1 0).db.cluster.cpu_available = 8 ∧
    (schedule_deployment exampleDB 1 0).db.cluster.ram_available = 28 ∧
    (schedule_deployment exampleDB 1 0).db.cluster.gpu_available = 1 := by
  have h := C1_admission_iff exampleDB 1 0 exampleDeployment (by decide)
  have h2 := h.2 (by decide)
  refine ⟨h.1.mpr (by decide), ?_, ?_, ?_⟩
  · rw [h2.1]
    norm_num [exampleDB, examplePool, exampleDeployment]
  · rw [h2.2.1]
    norm_num [exampleDB, examplePool, exampleDeployment]
  · rw [h2.2.2]
    norm_num [exampleDB, examplePool, exampleDeployment]

/-- Pool invariant of the spec: each available counter lies between 0 and the
corresponding limit. -/
def PoolInv (c : Cluster) : Prop :=
  0 ≤ c.cpu_available ∧ c.cpu_available ≤ c.cpu_limit ∧
  0 ≤ c.ram_available ∧ c.ram_available ≤ c.ram_limit ∧
  0 ≤ c.gpu_available ∧ c.gpu_available ≤ c.gpu_limit

/-- Every deployment row declares nonnegative resource requirements. -/
def NonnegReqs (ds : List Deployment) : Prop :=
  ∀ d ∈ ds, 0 ≤ d.cpu_required ∧ 0 ≤ d.ram_required ∧ 0 ≤ d.gpu_required

/-- A sequence of scheduling attempts run one after another against the same
store; each request carries a deployment id and the retries counter of that
attempt. -/
def runSeq (db : DB) (reqs : List (ℕ × ℕ)) : DB :=
  reqs.foldl (fun s r => (schedule_deployment s r.1 r.2).db) db

/-- Saving a row with nonnegative requirements preserves NonnegReqs. -/
theorem nonnegReqs_save {ds : List Deployment} {d2 : Deployment}
    (hds : NonnegReqs ds)
    (hd2 : 0 ≤ d2.cpu_required ∧ 0 ≤ d2.ram_required ∧ 0 ≤ d2.gpu_required) :
    NonnegReqs (saveDeployment ds d2) := by
  intro x hx
  rcases List.mem_map.mp hx with ⟨y, hy, hxy⟩
  by_cases hc : (y.id == d2.id) = true
  · rw [if_pos hc] at hxy
    exact hxy ▸ hd2
  · rw [if_neg hc] at hxy
    exact hxy ▸ hds y hy

/-- One scheduling attempt preserves nonnegative requirements and the pool
invariant. -/
theorem schedule_preserves (db : DB) (i r : ℕ)
    (hreq : NonnegReqs db.deployments) (hinv : PoolInv db.cluster) :
    NonnegReqs (schedule_deployment db i r).db.deployments ∧
    PoolInv (schedule_deployment db i r).db.cluster := by
  match hf : findDeployment db.deployments i with
  | none =>
    simp only [schedule_deployment, hf]
    exact ⟨hreq, hinv⟩
  | some d =>
    have hd := hreq d (findDeployment_mem hf)
    obtain ⟨hd1, hd2, hd3⟩ := hd
    by_cases hs : sufficientResources db.cluster d = true
    · have hc : d.cpu_required ≤ db.cluster.cpu_available ∧
          d.ram_required ≤ db.cluster.ram_available ∧
          d.gpu_required ≤ db.cluster.gpu_available := by
        simpa [sufficientResources, and_assoc] using hs
      obtain ⟨hc1, hc2, hc3⟩ := hc
      obtain ⟨hi1, hi2, hi3, hi4, hi5, hi6⟩ := hinv
      simp only [schedule_deployment, hf, hs, if_true]
      refine ⟨nonnegReqs_save hreq ⟨hd1, hd2, hd3⟩, ?_⟩
      exact ⟨sub_nonneg.mpr hc1, le_trans (sub_le_self _ hd1) hi2,
             sub_nonneg.mpr hc2, le_trans (sub_le_self _ hd2) hi4,
             sub_nonneg.mpr hc3, le_trans (sub_le_self _ hd3) hi6⟩
    · have hsf : sufficientResources db.cluster d = false := by simpa using hs
      simp only [schedule_deployment, hf, hsf, Bool.false_eq_true, if_false]
      constructor
      · split
        · exact nonnegReqs_save hreq ⟨hd1, hd2, hd3⟩
        · exact nonnegReqs_save hreq ⟨hd1, hd2, hd3⟩
      · split
        · exact hinv
        · exact hinv

/-- C2: along any sequence of scheduling attempts against the pool, if every
deployment row declares nonnegative requirements and the pool starts with each
available counter between 0 and its limit, then each available counter stays
between 0 and its limit. Since the sequence is arbitrary, the invariant holds
at every observable point of any longer run. -/
theorem C2_pool_invariant (db : DB) (reqs : List (ℕ × ℕ))
    (hreq : NonnegReqs db.deployments) (hinv : PoolInv db.cluster) :
    PoolInv (runSeq db reqs).cluster := by
  induction reqs generalizing db with
  | nil => exact hinv
  | cons r rs ih =>
    have hstep := schedule_preserves db r.1 r.2 hreq hinv
    exact ih _ hstep.1 hstep.2

/-- Witness for C2: the example store satisfies both hypotheses and the
invariant holds after running the scheduling attempt on deployment 1. -/
theorem C2_pool_invariant_witness :
    PoolInv (runSeq exampleDB [(1, 0)]).cluster :=
  C2_pool_invariant exampleDB [(1, 0)]
    (by simp only [NonnegReqs]; decide)
    (by simp only [PoolInv]; decide)

/-- On an insufficiency outcome the store keeps the old cluster row, the
deployment row is saved with status pending, and a delayed re-attempt is
enqueued iff the retries budget is not exhausted. -/
theorem schedule_insufficient {db : DB} {i r : ℕ} {d : Deployment}
    (h : findDeployment db.deployments i = some d)
    (hs : sufficientResources db.cluster d = false) :
    (schedule_deployment db i r).db =
      { db with
        deployments := saveDeployment db.deployments { d with status := Status.PENDING } } ∧
    (schedule_deployment db i r).retryAfter =
      (if r + 1 ≤ max_retries then some default_retry_delay else none) ∧
    (schedule_deployment db i r).message = "Insufficient resources, retrying..." := by
  by_cases hr : r + 1 ≤ max_retries
  · simp [schedule_deployment, h, hs, hr]
  · simp [schedule_deployment, h, hs, hr]

/-- C4: a scheduling attempt that finds insufficient resources leaves the three
available counters unchanged, stores status pending for the deployment, and
enqueues a retry with the fixed 60-unit delay exactly when the budget of
max_retries = 3 is not yet exhausted. -/
theorem C4_insufficiency_frame (db : DB) (i r : ℕ) (d : Deployment)
    (h : findDeployment db.deployments i = some d)
    (hs : sufficientResources db.cluster d = false) :
    (schedule_deployment db i r).db.cluster = db.cluster ∧
    findDeployment (schedule_deployment db i r).db.deployments i =
      some { d with status := Status.PENDING } ∧
    (schedule_deployment db i r).retryAfter =
      (if r + 1 ≤ max_retries then some default_retry_delay else none) := by
  obtain ⟨h1, h2, _⟩ := schedule_insufficient h hs
  refine ⟨?_, ?_, h2⟩
  · rw [h1]
  · rw [h1]
    exact findDeployment_save h rfl

/-- A workload whose cpu demand of 20 exceeds the example pool. -/
def bigDeployment : Deployment :=
  { id := 2, name := "big", docker_image := "img", status := Status.PENDING
    priority := 0, cpu_required := 20, ram_required := 4, gpu_required := 1
    dependencies := [] }

/-- Store holding the example pool and the oversized workload. -/
def exampleDB2 : DB := { deployments := [bigDeployment], cluster := examplePool }

/-- Witness for C4: the cpu = 20 demand against the (10, 32, 2) pool is
deferred with the pool untouched, status pending and a 60-unit retry. -/
theorem C4_insufficiency_frame_witness :
    (schedule_deployment exampleDB2 2 0).db.cluster = examplePool ∧
    findDeployment (schedule_deployment exampleDB2 2 0).db.deployments 2 =
      some { bigDeployment with status := Status.PENDING } ∧
    (schedule_deployment exampleDB2 2 0).retryAfter = some 60 := by
  have h := C4_insufficiency_frame exampleDB2 2 0 bigDeployment (by decide) (by decide)
  exact ⟨h.1, h.2.1, h.2.2.trans (by decide)⟩

/-- C8: a scheduling attempt whose deployment id matches no row terminates
with the not-found message, enqueues no retry, and leaves the whole store,
deployment rows and cluster row alike, unchanged. -/
theorem C8_not_found (db : DB) (i r : ℕ)
    (h : findDeployment db.deployments i = none) :
    (schedule_deployment db i r).db = db ∧
    (schedule_deployment db i r).message =
      "Deployment " ++ toString i ++ " not found." ∧
    (schedule_deployment db i r).retryAfter = none := by
  simp [schedule_deployment, h]

/-- Witness for C8 at a concrete store: id 99 matches no row. -/
theorem C8_not_found_witness :
    (schedule_deployment exampleDB 99 0).db = exampleDB ∧
    (schedule_deployment exampleDB 99 0).message = "Deployment 99 not found." ∧
    (schedule_deployment exampleDB 99 0).retryAfter = none := by
  have h := C8_not_found exampleDB 99 0 (by decide)
  exact ⟨h.1, h.2.1.trans (by decide), h.2.2⟩

/-- Drive the retry protocol of the Celery transport for one deployment: run
one attempt; while the attempt enqueues a delayed re-attempt, run the next
attempt with the retries counter incremented, as the worker does after the
countdown elapses. The fuel only bounds the recursion and is irrelevant once
it exceeds the number of evaluations performed. Returns the number of
evaluations of the scheduler together with the final store. -/
def runRetries (i : ℕ) : DB → ℕ → ℕ → ℕ × DB
  | db, _, 0 => (0, db)
  | db, r, fuel + 1 =>
      let res := schedule_deployment db i r
      match res.retryAfter with
      | none => (1, res.db)
      | some _ =>
          let rest := runRetries i res.db (r + 1) fuel
          (rest.1 + 1, rest.2)

/-- An attempt that enqueues no re-attempt ends the protocol after this one
evaluation. -/
theorem runRetries_stop {db : DB} {i r fuel : ℕ}
    (h : (schedule_deployment db i r).retryAfter = none) :
    runRetries i db r (fuel + 1) = (1, (schedule_deployment db i r).db) := by
  simp only [runRetries, h]

/-- An attempt that enqueues a re-attempt adds one evaluation and continues
with the incremented retries counter. -/
theorem runRetries_go {db : DB} {i r fuel t : ℕ}
    (h : (schedule_deployment db i r).retryAfter = some t) :
    runRetries i db r (fuel + 1) =
      ((runRetries i (schedule_deployment db i r).db (r + 1) fuel).1 + 1,
       (runRetries i (schedule_deployment db i r).db (r + 1) fuel).2) := by
  simp only [runRetries, h]

/-- C5: a deployment whose gpu demand exceeds the gpu limit, against a pool
whose gpu availability is within its limit, is evaluated exactly 4 times
(initial attempt plus max_retries = 3 retries), after which no further
attempts occur no matter how much fuel remains, the deployment is left stored
with status pending and the pool is unchanged. -/
theorem C5_retry_bound (db : DB) (i : ℕ) (d : Deployment) (fuel : ℕ)
    (h : findDeployment db.deployments i = some d)
    (hgl : db.cluster.gpu_limit < d.gpu_required)
    (hal : db.cluster.gpu_available ≤ db.cluster.gpu_limit)
    (hfuel : 4 ≤ fuel) :
    (runRetries i db 0 fuel).1 = 4 ∧
    findDeployment (runRetries i db 0 fuel).2.deployments i =
      some { d with status := Status.PENDING } ∧
    (runRetries i db 0 fuel).2.cluster = db.cluster := by
  have step : ∀ (db2 : DB) (r : ℕ) (d2 : Deployment),
      findDeployment db2.deployments i = some d2 →
      db2.cluster = db.cluster →
      d2.gpu_required = d.gpu_required →
      (schedule_deployment db2 i r).db.cluster = db.cluster ∧
      findDeployment (schedule_deployment db2 i r).db.deployments i =
        some { d2 with status := Status.PENDING } ∧
      (schedule_deployment db2 i r).retryAfter =
        (if r + 1 ≤ max_retries then some default_retry_delay else none) := by
    intro db2 r d2 hf hcl hg
    have hnot : ¬ (db2.cluster.gpu_available ≥ d2.gpu_required) := by
      rw [hcl, hg]
      exact not_le.mpr (lt_of_le_of_lt hal hgl)
    have hsf : sufficientResources db2.cluster d2 = false := by
      simp [sufficientResources, hnot]
    obtain ⟨h1, h2, _⟩ := schedule_insufficient hf hsf
    refine ⟨?_, ?_, h2⟩
    · rw [h1]
      exact hcl
    · rw [h1]
      exact findDeployment_save hf rfl
  obtain ⟨k, rfl⟩ : ∃ k, fuel = k + 4 := ⟨fuel - 4, by omega⟩
  obtain ⟨c1, f1, r1⟩ := step db 0 d h rfl rfl
  obtain ⟨c2, f2, r2⟩ := step (schedule_deployment db i 0).db 1 _ f1 c1 rfl
  obtain ⟨c3, f3, r3⟩ :=
    step (schedule_deployment (schedule_deployment db i 0).db i 1).db 2 _ f2 c2 rfl
  obtain ⟨c4, f4, r4⟩ :=
    step (schedule_deployment
      (schedule_deployment (schedule_deployment db i 0).db i 1).db i 2).db 3 _ f3 c3 rfl
  have e1 : (schedule_deployment db i 0).retryAfter = some default_retry_delay :=
    r1.trans rfl
  have e2 : (schedule_deployment (schedule_deployment db i 0).db i 1).retryAfter =
      some default_retry_delay := r2.trans rfl
  have e3 : (schedule_deployment
      (schedule_deployment (schedule_deployment db i 0).db i 1).db i 2).retryAfter =
      some default_retry_delay := r3.trans rfl
  have e4 : (schedule_deployment (schedule_deployment
      (schedule_deployment (schedule_deployment db i 0).db i 1).db i 2).db i 3).retryAfter =
      none := r4.trans rfl
  rw [show k + 4 = (k + 3) + 1 from rfl, runRetries_go e1,
      show k + 3 = (k + 2) + 1 from rfl, runRetries_go e2,
      show k + 2 = (k + 1) + 1 from rfl, runRetries_go e3,
      runRetries_stop e4]
  exact ⟨rfl, f4, c4⟩

/-- A workload whose gpu demand of 5 can never be satisfied by the example
pool, whose gpu limit is 2. -/
def gpuHog : Deployment :=
  { id := 3, name := "hog", docker_image := "img", status := Status.PENDING
    priority := 0, cpu_required := 1, ram_required := 1, gpu_required := 5
    dependencies := [] }

/-- Store holding the example pool and the unsatisfiable workload. -/
def exampleDB3 : DB := { deployments := [gpuHog], cluster := examplePool }

/-- Witness for C5: with fuel 10 the unsatisfiable workload is evaluated
exactly 4 times, stays pending and leaves the pool unchanged. -/
theorem C5_retry_bound_witness :
    (runRetries 3 exampleDB3 0 10).1 = 4 ∧
    findDeployment (runRetries 3 exampleDB3 0 10).2.deployments 3 =
      some { gpuHog with status := Status.PENDING } ∧
    (runRetries 3 exampleDB3 0 10).2.cluster = exampleDB3.cluster :=
  C5_retry_bound exampleDB3 3 gpuHog 10 (by decide) (by decide) (by decide) (by decide)

/-- The sequence of durable store states one attempt exposes, one entry per
atomic commit point of the source: the initial state, then, on the admitted
branch, the single state committed by the transaction.atomic block that saves
the deployment and the cluster together, or, on the insufficiency branch, the
state committed by the lone deployment save. An attempt on a missing id
commits nothing. -/
def commitStates (db : DB) (i : ℕ) : List DB :=
  match findDeployment db.deployments i with
  | none => [db]
  | some d =>
      if sufficientResources db.cluster d then
        [db,
         { deployments := saveDeployment db.deployments { d with status := Status.RUNNING }
           cluster := allocate db.cluster d }]
      else
        [db,
         { db with
           deployments := saveDeployment db.deployments { d with status := Status.PENDING } }]

/-- The last committed state of the trace is the store the attempt returns,
tying commitStates to schedule_deployment. -/
theorem commitStates_last (db : DB) (i r : ℕ) :
    (commitStates db i).getLast? = some (schedule_deployment db i r).db := by
  match hf : findDeployment db.deployments i with
  | none => simp [commitStates, schedule_deployment, hf]
  | some d =>
    by_cases hs : sufficientResources db.cluster d = true
    · simp [commitStates, schedule_deployment, hf, hs]
    · have hsf : sufficientResources db.cluster d = false := by simpa using hs
      simp only [commitStates, schedule_deployment, hf, hsf, Bool.false_eq_true, if_false]
      split
      · rfl
      · rfl

/-- C6: on the admitted branch the running status and the decremented counters
become durable together: every state of the commit trace is either the full
pre-state (deployment still stored pending, pool untouched) or the full
post-state (deployment stored running, all three counters decremented); a
fault between the two saves can expose no state mixing them. -/
theorem C6_atomic_commit (db : DB) (i : ℕ) (d : Deployment)
    (h : findDeployment db.deployments i = some d)
    (hst : d.status = Status.PENDING)
    (hs : sufficientResources db.cluster d = true) :
    ∀ s ∈ commitStates db i,
      (findDeployment s.deployments i = some d ∧ d.status = Status.PENDING ∧
        s.cluster = db.cluster) ∨
      (findDeployment s.deployments i = some { d with status := Status.RUNNING } ∧
        s.cluster = allocate db.cluster d) := by
  intro s hsmem
  simp only [commitStates, h, hs, if_true, List.mem_cons, List.not_mem_nil, or_false] at hsmem
  rcases hsmem with hs1 | hs2
  · left
    exact ⟨hs1 ▸ h, hst, hs1 ▸ rfl⟩
  · right
    subst hs2
    exact ⟨findDeployment_save h rfl, rfl⟩

/-- Witness for C6 at the concrete admitted scenario, instantiated at the
first state of the commit trace. -/
theorem C6_atomic_commit_witness :
    (findDeployment exampleDB.deployments 1 = some exampleDeployment ∧
      exampleDeployment.status = Status.PENDING ∧
      exampleDB.cluster = exampleDB.cluster) ∨
    (findDeployment exampleDB.deployments 1 =
      some { exampleDeployment with status := Status.RUNNING } ∧
      exampleDB.cluster = allocate exampleDB.cluster exampleDeployment) :=
  C6_atomic_commit exampleDB 1 exampleDeployment (by decide) (by decide) (by decide)
    exampleDB (List.mem_cons_self _ _)

/-- The read phase of one attempt: the fetch of the deployment row by id plus
the cluster foreign-key access take an in-memory snapshot of both rows. -/
def taskRead (db : DB) (i : ℕ) : Option (Deployment × Cluster) :=
  (findDeployment db.deployments i).map (fun d => (d, db.cluster))

/-- The decide-and-write phase of one attempt: the availability check and the
counter decrements are computed on the in-memory snapshot, and the save calls
overwrite the current shared store with every field of the in-memory objects.
No lock or conditional update guards the gap between read and write. -/
def taskWrite (db : DB) (snap : Deployment × Cluster) (r : ℕ) : AttemptResult :=
  if sufficientResources snap.2 snap.1 then
    { db := { deployments :=
                saveDeployment db.deployments { snap.1 with status := Status.RUNNING }
              cluster := allocate snap.2 snap.1 }
      message := "Deployment " ++ toString snap.1.id ++ " is now running."
      retryAfter := none }
  else
    { db := { db with
              deployments :=
                saveDeployment db.deployments { snap.1 with status := Status.PENDING } }
      message := "Insufficient resources, retrying..."
      retryAfter := if r + 1 ≤ max_retries then some default_retry_delay else none }

/-- A solo attempt is exactly its read phase immediately followed by its write
phase, so the two-phase decomposition is faithful to schedule_deployment. -/
theorem schedule_eq_phases (db : DB) (i r : ℕ) :
    schedule_deployment db i r =
      (match taskRead db i with
       | none =>
           { db := db
             message := "Deployment " ++ toString i ++ " not found."
             retryAfter := none }
       | some snap => taskWrite db snap r) := by
  match hf : findDeployment db.deployments i with
  | none => simp [schedule_deployment, taskRead, hf]
  | some d =>
    by_cases hs : sufficientResources db.cluster d = true
    · simp [schedule_deployment, taskRead, taskWrite, hf, hs]
    · have hsf : sufficientResources db.cluster d = false := by simpa using hs
      simp [schedule_deployment, taskRead, taskWrite, hf, hsf]
      split
      · rfl
      · rfl

/-- First contender: demands 1 cpu, 1 ram and both gpus of the example pool. -/
def raceDeployment1 : Deployment :=
  { id := 1, name := "w1", docker_image := "img", status := Status.PENDING
    priority := 0, cpu_required := 1, ram_required := 1, gpu_required := 2
    dependencies := [] }

/-- Second contender with the same demand. -/
def raceDeployment2 : Deployment :=
  { id := 2, name := "w2", docker_image := "img", status := Status.PENDING
    priority := 0, cpu_required := 1, ram_required := 1, gpu_required := 2
    dependencies := [] }

/-- Store with both contenders against the example pool (gpu availability 2). -/
def raceDB : DB :=
  { deployments := [raceDeployment1, raceDeployment2], cluster := examplePool }

/-- C3 fails on the code: with the interleaving read 1, read 2, write 1,
write 2 of two attempts against a pool that can satisfy only one of the two
equal demands, both read phases observe sufficiency, both write phases
decrement, and both deployments end up stored running, although their combined
gpu demand of 4 exceeds the availability of 2. -/
theorem C3_race_both_admitted :
    taskRead raceDB 1 = some (raceDeployment1, examplePool) ∧
    taskRead raceDB 2 = some (raceDeployment2, examplePool) ∧
    sufficientResources examplePool raceDeployment1 = true ∧
    sufficientResources examplePool raceDeployment2 = true ∧
    examplePool.gpu_available <
      raceDeployment1.gpu_required + raceDeployment2.gpu_required ∧
    findDeployment ((taskWrite (taskWrite raceDB (raceDeployment1, examplePool) 0).db
        (raceDeployment2, examplePool) 0).db).deployments 1 =
      some { raceDeployment1 with status := Status.RUNNING } ∧
    findDeployment ((taskWrite (taskWrite raceDB (raceDeployment1, examplePool) 0).db
        (raceDeployment2, examplePool) 0).db).deployments 2 =
      some { raceDeployment2 with status := Status.RUNNING } ∧
    ((taskWrite (taskWrite raceDB (raceDeployment1, examplePool) 0).db
        (raceDeployment2, examplePool) 0).db).cluster.gpu_available = 0 := by
  refine ⟨by decide, by decide, by decide, by decide, ?_, by decide, by decide, ?_⟩
  · norm_num [examplePool, raceDeployment1, raceDeployment2]
  · show examplePool.gpu_available - raceDeployment2.gpu_required = 0
    norm_num [examplePool, raceDeployment2]

/-- A deployment already stored as running, alongside the pool state left by
its own admission: the (10, 32, 2) pool with (2, 4, 1) already reserved. -/
def runningDeployment : Deployment :=
  { id := 1, name := "web", docker_image := "img", status := Status.RUNNING
    priority := 0, cpu_required := 2, ram_required := 4, gpu_required := 1
    dependencies := [] }

/-- The pool after the first admission of runningDeployment. -/
def poolAfterAdmission : Cluster :=
  { cpu_limit := 10, ram_limit := 32, gpu_limit := 2
    cpu_available := 8, ram_available := 28, gpu_available := 1 }

/-- Store with the already-running deployment. -/
def runningDB : DB :=
  { deployments := [runningDeployment], cluster := poolAfterAdmission }

/-- C7 fails on the code: invoking the scheduler again on a deployment already
stored running decrements the pool a second time, from (8, 28, 1) down to
(6, 24, 0); the entry point never checks the current status. -/
theorem C7_double_decrement :
    (schedule_deployment runningDB 1 0).db.cluster.cpu_available = 6 ∧
    (schedule_deployment runningDB 1 0).db.cluster.ram_available = 24 ∧
    (schedule_deployment runningDB 1 0).db.cluster.gpu_available = 0 ∧
    (schedule_deployment runningDB 1 0).db.cluster ≠ runningDB.cluster := by
  have hcpu : (schedule_deployment runningDB 1 0).db.cluster.cpu_available = 6 := by
    show poolAfterAdmission.cpu_available - runningDeployment.cpu_required = 6
    norm_num [poolAfterAdmission, runningDeployment]
  have hram : (schedule_deployment runningDB 1 0).db.cluster.ram_available = 24 := by
    show poolAfterAdmission.ram_available - runningDeployment.ram_required = 24
    norm_num [poolAfterAdmission, runningDeployment]
  have hgpu : (schedule_deployment runningDB 1 0).db.cluster.gpu_available = 0 := by
    show poolAfterAdmission.gpu_available - runningDeployment.gpu_required = 0
    norm_num [poolAfterAdmission, runningDeployment]
  refine ⟨hcpu, hram, hgpu, fun he => ?_⟩
  have h2 := congrArg Cluster.gpu_available he
  rw [hgpu] at h2
  norm_num [runningDB, poolAfterAdmission] at h2

/-- Fault injection for one attempt: an optional exception message at each
fallible operation of the source, namely the initial fetch of the rows, the
transaction atomic block of the admitted branch, and the lone deployment save
of the insufficiency branch. -/
structure FaultSpec where
  fetch : Option String
  commit : Option String
  save : Option String
deriving DecidableEq, Repr

/-- The exceptions reaching the except handlers of the task: DoesNotExist,
Retry (raised by self.retry and caught by the task itself), and any other
exception. -/
inductive Exc
  | doesNotExist
  | retryExc (msg : String)
  | otherExc (msg : String)
deriving DecidableEq, Repr

/-- The try-block of schedule_deployment under fault injection. An error
carries the exception together with the store as committed at the moment it is
raised: a fault inside the transaction atomic block rolls both saves back, so
it carries the pre-attempt store; the Retry raised after a successful
deployment save carries the store with that save applied. -/
def taskBody (db : DB) (i r : ℕ) (f : FaultSpec) : Except (Exc × DB) (DB × String) :=
  match f.fetch with
  | some m => .error (.otherExc m, db)
  | none =>
    match findDeployment db.deployments i with
    | none => .error (.doesNotExist, db)
    | some d =>
      if sufficientResources db.cluster d then
        match f.commit with
        | some m => .error (.otherExc m, db)
        | none =>
            .ok ({ deployments :=
                     saveDeployment db.deployments { d with status := Status.RUNNING }
                   cluster := allocate db.cluster d },
                 "Deployment " ++ toString d.id ++ " is now running.")
      else
        match f.save with
        | some m => .error (.otherExc m, db)
        | none =>
            .error (.retryExc "Insufficient resources, retrying...",
                    { db with deployments :=
                        saveDeployment db.deployments { d with status := Status.PENDING } })

/-- The except handlers of the task, in source order: DoesNotExist is reported
as not found, Retry is reported with its own message, and any other exception
is reported with the error-outcome string; none of them re-raises. -/
def handleExc (i : ℕ) : Exc → String
  | .doesNotExist => "Deployment " ++ toString i ++ " not found."
  | .retryExc m => m
  | .otherExc m => "Error scheduling deployment " ++ toString i ++ ": " ++ m

/-- schedule_deployment under fault injection: the try-block wrapped in the
handlers. It is a total function into a returned store and message, the model
counterpart of the entry point never letting an exception escape to its
caller. -/
def schedule_deployment_guarded (db : DB) (i r : ℕ) (f : FaultSpec) : DB × String :=
  match taskBody db i r f with
  | .ok res => res
  | .error e => (e.2, handleExc i e.1)

/-- With no fault injected, the guarded attempt commits exactly the store of
the plain attempt, tying the fault model to schedule_deployment. -/
theorem guarded_noFault (db : DB) (i r : ℕ) :
    (schedule_deployment_guarded db i r ⟨none, none, none⟩).1 =
      (schedule_deployment db i r).db := by
  match hf : findDeployment db.deployments i with
  | none => simp [schedule_deployment_guarded, taskBody, schedule_deployment, hf]
  | some d =>
    by_cases hs : sufficientResources db.cluster d = true
    · simp [schedule_deployment_guarded, taskBody, schedule_deployment, hf, hs]
    · have hsf : sufficientResources db.cluster d = false := by simpa using hs
      simp [schedule_deployment_guarded, taskBody, schedule_deployment, hf, hsf]
      split
      · rfl
      · rfl

/-- C9: every injected fault other than the not-found and insufficiency cases
is caught at the attempt boundary and converted to the reported error-outcome
string (the guarded entry point returns it instead of re-raising), and no
attempt, faulting or not, leaves the counters partially decremented: the
resulting cluster row is either exactly the original or exactly the fully
decremented row of a completed admission that also stored the deployment as
running. -/
theorem C9_fault_containment (db : DB) (i r : ℕ) (f : FaultSpec) :
    (∀ m db2, taskBody db i r f = Except.error (Exc.otherExc m, db2) →
      schedule_deployment_guarded db i r f =
        (db2, "Error scheduling deployment " ++ toString i ++ ": " ++ m)) ∧
    ((schedule_deployment_guarded db i r f).1.cluster = db.cluster ∨
     ∃ d, findDeployment db.deployments i = some d ∧
       sufficientResources db.cluster d = true ∧
       (schedule_deployment_guarded db i r f).1.cluster = allocate db.cluster d ∧
       findDeployment (schedule_deployment_guarded db i r f).1.deployments i =
         some { d with status := Status.RUNNING }) := by
  constructor
  · intro m db2 hb
    simp [schedule_deployment_guarded, hb, handleExc]
  · match hfe : f.fetch with
    | some m => left; simp [schedule_deployment_guarded, taskBody, hfe]
    | none =>
      match hf : findDeployment db.deployments i with
      | none => left; simp [schedule_deployment_guarded, taskBody, hfe, hf]
      | some d =>
        by_cases hs : sufficientResources db.cluster d = true
        · match hc : f.commit with
          | some m => left; simp [schedule_deployment_guarded, taskBody, hfe, hf, hs, hc]
          | none =>
            right
            refine ⟨d, rfl, hs, ?_, ?_⟩
            · simp [schedule_deployment_guarded, taskBody, hfe, hf, hs, hc]
            · simp only [schedule_deployment_guarded, taskBody, hfe, hf, hs, hc, if_true]
              exact findDeployment_save hf rfl
        · have hsf : sufficientResources db.cluster d = false := by simpa using hs
          match hsv : f.save with
          | some m => left; simp [schedule_deployment_guarded, taskBody, hfe, hf, hsf, hsv]
          | none => left; simp [schedule_deployment_guarded, taskBody, hfe, hf, hsf, hsv]

/-- Witness for C9: a fault at the fetch is returned as the error string with
the store untouched. -/
theorem C9_fault_containment_witness :
    schedule_deployment_guarded exampleDB 1 0 ⟨some "db down", none, none⟩ =
      (exampleDB, "Error scheduling deployment 1: db down") := by
  have h := C9_fault_containment exampleDB 1 0 ⟨some "db down", none, none⟩
  exact (h.1 "db down" exampleDB rfl).trans (by decide)

/-- core.models.Deployment.are_dependencies_completed: iterate the resolved
dependency rows and test each stored status against the literal string
COMPLETED, exactly as the source compares dep.status to that uppercase
literal. -/
def are_dependencies_completed (db : DB) (d : Deployment) : Bool :=
  (d.dependencies.filterMap (fun j => findDeployment db.deployments j)).all
    (fun dep => dep.status == "COMPLETED")

/-- Two deployment rows that agree on every field except possibly priority
and dependencies. -/
def SameSched (a b : Deployment) : Prop :=
  a.id = b.id ∧ a.name = b.name ∧ a.docker_image = b.docker_image ∧
  a.status = b.status ∧ a.cpu_required = b.cpu_required ∧
  a.ram_required = b.ram_required ∧ a.gpu_required = b.gpu_required

/-- Lookup respects the row-wise SameSched relation: on related tables the two
lookups either both miss or find related rows. -/
theorem findDeployment_rel {l1 l2 : List Deployment}
    (h : List.Forall₂ SameSched l1 l2) (i : ℕ) :
    (findDeployment l1 i = none ∧ findDeployment l2 i = none) ∨
    (∃ a b, findDeployment l1 i = some a ∧ findDeployment l2 i = some b ∧
      SameSched a b) := by
  induction h with
  | nil => left; exact ⟨rfl, rfl⟩
  | cons hab hrest ih =>
    rename_i a b l1t l2t
    by_cases hx : (a.id == i) = true
    · right
      have hb : (b.id == i) = true := by
        rw [← hab.1]
        exact hx
      refine ⟨a, b, ?_, ?_, hab⟩
      · simp only [findDeployment, List.find?_cons, hx]
      · simp only [findDeployment, List.find?_cons, hb]
    · have hb : ¬ ((b.id == i) = true) := by
        rw [← hab.1]
        exact hx
      have hxf : (a.id == i) = false := by simpa using hx
      have hbf : (b.id == i) = false := by simpa using hb
      rcases ih with ⟨h1, h2⟩ | ⟨x, y, h1, h2, hxy⟩
      · left
        constructor
        · simp only [findDeployment, List.find?_cons, hxf]
          exact h1
        · simp only [findDeployment, List.find?_cons, hbf]
          exact h2
      · right
        refine ⟨x, y, ?_, ?_, hxy⟩
        · simp only [findDeployment, List.find?_cons, hxf]
          exact h1
        · simp only [findDeployment, List.find?_cons, hbf]
          exact h2

/-- C10: the dependency check compares each resolved dependency status to the
uppercase literal COMPLETED, which no stored status equals, so whenever every
dependency resolves to a row carrying one of the four stored statuses the
check returns true iff the dependency set is empty; and the scheduling
decision reads neither the dependency check nor the priority field: on two
stores whose cluster rows are equal and whose deployment tables agree on
everything except possibly priority and dependencies, an attempt yields the
same resulting cluster row, the same outcome message and the same retry
scheduling. -/
theorem C10_dependencies_and_priority_unused :
    (∀ (db : DB) (d : Deployment),
      (∀ j ∈ d.dependencies, ∃ dep, findDeployment db.deployments j = some dep ∧
        (dep.status = Status.PENDING ∨ dep.status = Status.RUNNING ∨
         dep.status = Status.FAILED ∨ dep.status = Status.COMPLETED)) →
      (are_dependencies_completed db d = true ↔ d.dependencies = [])) ∧
    (∀ (db1 db2 : DB) (i r : ℕ),
      db1.cluster = db2.cluster →
      List.Forall₂ SameSched db1.deployments db2.deployments →
      (schedule_deployment db1 i r).db.cluster =
        (schedule_deployment db2 i r).db.cluster ∧
      (schedule_deployment db1 i r).message = (schedule_deployment db2 i r).message ∧
      (schedule_deployment db1 i r).retryAfter =
        (schedule_deployment db2 i r).retryAfter) := by
  constructor
  · intro db d hdeps
    constructor
    · intro hall
      by_contra hne
      obtain ⟨j, hj⟩ : ∃ j, j ∈ d.dependencies := by
        cases hd : d.dependencies with
        | nil => exact absurd hd hne
        | cons a l => exact ⟨a, List.mem_cons_self a l⟩
      obtain ⟨dep, hres, hst⟩ := hdeps j hj
      have hmem : dep ∈ d.dependencies.filterMap
          (fun j2 => findDeployment db.deployments j2) :=
        List.mem_filterMap.mpr ⟨j, hj, hres⟩
      have hdep := List.all_eq_true.mp hall dep hmem
      have hcomp : dep.status = "COMPLETED" := by simpa using hdep
      rcases hst with h1 | h1 | h1 | h1 <;> rw [h1] at hcomp <;>
        exact absurd hcomp (by decide)
    · intro he
      simp [are_dependencies_completed, he]
  · intro db1 db2 i r hcl hds
    rcases findDeployment_rel hds i with ⟨h1, h2⟩ | ⟨a, b, h1, h2, hab⟩
    · simp only [schedule_deployment, h1, h2]
      exact ⟨hcl, trivial, trivial⟩
    · obtain ⟨hid, _, _, _, hcpu, hram, hgpu⟩ := hab
      have hsuf : sufficientResources db1.cluster a = sufficientResources db2.cluster b := by
        simp [sufficientResources, hcl, hcpu, hram, hgpu]
      by_cases hs : sufficientResources db1.cluster a = true
      · have hs2 : sufficientResources db2.cluster b = true := hsuf ▸ hs
        simp only [schedule_deployment, h1, h2, hs, hs2, if_true]
        refine ⟨?_, ?_, trivial⟩
        · simp [allocate, hcl, hcpu, hram, hgpu]
        · rw [hid]
      · have hsf : sufficientResources db1.cluster a = false := by simpa using hs
        have hs2f : sufficientResources db2.cluster b = false := hsuf ▸ hsf
        simp only [schedule_deployment, h1, h2, hsf, hs2f, Bool.false_eq_true, if_false]
        by_cases hr : r + 1 ≤ max_retries
        · simp only [if_pos hr]
          exact ⟨hcl, trivial, trivial⟩
        · simp only [if_neg hr]
          exact ⟨hcl, trivial, trivial⟩

/-- A deployment that completed, stored with the lowercase status string. -/
def completedDeployment : Deployment :=
  { id := 1, name := "web", docker_image := "img", status := Status.COMPLETED
    priority := 0, cpu_required := 2, ram_required := 4, gpu_required := 1
    dependencies := [] }

/-- A workload depending on the completed deployment. -/
def depDeployment : Deployment :=
  { id := 4, name := "child", docker_image := "img", status := Status.PENDING
    priority := 0, cpu_required := 1, ram_required := 1, gpu_required := 0
    dependencies := [1] }

/-- Store holding the completed dependency and its dependent workload. -/
def exampleDB4 : DB :=
  { deployments := [completedDeployment, depDeployment], cluster := examplePool }

/-- The dependent workload again, differing only in priority and
dependencies. -/
def depDeploymentAlt : Deployment :=
  { id := 4, name := "child", docker_image := "img", status := Status.PENDING
    priority := 7, cpu_required := 1, ram_required := 1, gpu_required := 0
    dependencies := [] }

/-- The same store with the variant row. -/
def exampleDB4Alt : DB :=
  { deployments := [completedDeployment, depDeploymentAlt], cluster := examplePool }

/-- Witness for C10: the check is false for the workload whose one dependency
is stored completed (lowercase), and the attempt on the two stores differing
only in priority and dependencies agrees on cluster, message and retry. -/
theorem C10_dependencies_and_priority_unused_witness :
    are_dependencies_completed exampleDB4 depDeployment = false ∧
    (schedule_deployment exampleDB4 4 0).db.cluster =
      (schedule_deployment exampleDB4Alt 4 0).db.cluster ∧
    (schedule_deployment exampleDB4 4 0).message =
      (schedule_deployment exampleDB4Alt 4 0).message ∧
    (schedule_deployment exampleDB4 4 0).retryAfter =
      (schedule_deployment exampleDB4Alt 4 0).retryAfter := by
  have h := C10_dependencies_and_priority_unused
  have hdeps : ∀ j ∈ depDeployment.dependencies,
      ∃ dep, findDeployment exampleDB4.deployments j = some dep ∧
        (dep.status = Status.PENDING ∨ dep.status = Status.RUNNING ∨
         dep.status = Status.FAILED ∨ dep.status = Status.COMPLETED) := by
    intro j hj
    have hj1 : j = 1 := by simpa [depDeployment] using hj
    subst hj1
    exact ⟨completedDeployment, by decide, Or.inr (Or.inr (Or.inr rfl))⟩
  have ha := h.1 exampleDB4 depDeployment hdeps
  have hb := h.2 exampleDB4 exampleDB4Alt 4 0 rfl
    (List.Forall₂.cons ⟨rfl, rfl, rfl, rfl, rfl, rfl, rfl⟩
      (List.Forall₂.cons ⟨rfl, rfl, rfl, rfl, rfl, rfl, rfl⟩ List.Forall₂.nil))
  refine ⟨?_, hb.1, hb.2.1, hb.2.2⟩
  by_contra hne
  have ht : are_dependencies_completed exampleDB4 depDeployment = true := by
    cases hcase : are_dependencies_completed exampleDB4 depDeployment
    · exact absurd hcase hne
    · rfl
  have := ha.mp ht
  simp [depDeployment] at this

end HypervisorMLOps
